import Mathlib

/-!
# serLCD: a shallow embedding of `src/serLCD.cpp`

The serial transport (`_serialobject`) is modelled by the list of bytes it has
received, oldest first.  C `int` values are `Int`, 8-bit values are `Nat` reduced
modulo 256 where the source converts to `uint8_t`.  The settling delays
(`delay(4)`, `delay(5)`) have no effect on the byte stream and are not modelled.
Array accesses whose index the source does not bound by a constant are checked: an
operation returns `none` when it would read or store outside the array.

The header `serLCD.h` is not part of the sources.  Constants whose value the
specification fixes are defined below; the remaining ones are parameters of the
operations that use them.
-/

/-! ## Constants of the missing header -/

/-- Modelled from the spec: the macro `LCD_CLEARDISPLAY` of the missing header; the
end-to-end byte sequence of the specification gives the clear command as `0x01`. -/
def LCD_CLEARDISPLAY : Int := 0x01

/-- Modelled from the spec: the macro `LCD_SETDDRAMADDR` of the missing header; the
end-to-end byte sequence of the specification gives the DDRAM-address command for row 1,
column 1 (address 0) as `0x80`. -/
def LCD_SETDDRAMADDR : Int := 0x80

/-- Modelled from the spec: the macro `LCD_SETCGRAMADDR` of the missing header; the
specification gives the glyph addresses as `0x40 | (slot << 3) | i`. -/
def LCD_SETCGRAMADDR : Int := 0x40

/-- Modelled from the spec: the macro `LCD_2LINE` of the missing header; the
specification says a session is created with a line count of 2. -/
def LCD_2LINE : Nat := 2

/-- Modelled from the spec: the macro `LCD_16CHAR` of the missing header; the
specification says a session is created with 16 characters per line. -/
def LCD_16CHAR : Nat := 16

/-! ## Machine-level helpers -/

/-- Conversion of an integer value to `uint8_t`: reduction modulo 256. -/
def uint8 (x : Int) : Nat := (x % 256).toNat

/-- The local table `row_offsets[2][4]` of `serLCD::setCursor`. -/
def row_offsets : List (List Int) :=
  [[0x00, 0x40, 0x10, 0x50],
   [0x00, 0x40, 0x14, 0x54]]

/-- The address expression of `serLCD::setCursor`:
`(col - 1) + row_offsets[_rowoffset][(row - 1)]` (0 stands for an entry outside the table). -/
def ddramAddress (rowoffset : Nat) (row col : Int) : Int :=
  (col - 1) + (row_offsets.getD rowoffset []).getD (row - 1).toNat 0

/-! ## The direct driver -/

/-- State of a `serLCD` object: the bytes its transport has received and its fields. -/
structure serLCD where
  -- bytes received by the serial transport, oldest first
  _serialobject : List Nat
  _numlines : Nat
  _numchars : Nat
  _rowoffset : Nat
  _displaymode : Nat
  _displaycontrol : Nat
deriving DecidableEq, Repr

/-- The constructor `serLCD::serLCD`: 16x2 defaults, row offset 0.  The two flag
fields are not assigned by the constructor; their initial values are arguments. -/
def serLCD.construct (serial : List Nat) (displaymode displaycontrol : Nat) : serLCD :=
  { _serialobject := serial
    _numlines := LCD_2LINE
    _numchars := LCD_16CHAR
    _rowoffset := 0
    _displaymode := displaymode
    _displaycontrol := displaycontrol }

/-- The method `serLCD::write(uint8_t b)`: hands the byte to the transport. -/
def serLCD.write (self : serLCD) (b : Int) : serLCD :=
  { self with _serialobject := self._serialobject ++ [uint8 b] }

/-- The method `serLCD::command(uint8_t value)`: prefix `0xFE`, then the value. -/
def serLCD.command (self : serLCD) (value : Int) : serLCD :=
  let value := uint8 value
  (self.write 0xFE).write value

/-- The method `serLCD::specialCommand(uint8_t value)`: prefix `0x7C`, then the value. -/
def serLCD.specialCommand (self : serLCD) (value : Int) : serLCD :=
  let value := uint8 value
  (self.write 0x7C).write value

/-- Modelled from the spec: `print` is inherited from a base class that is not in the
sources; printing a string writes its characters, in order, through `write`. -/
def serLCD.print (self : serLCD) (str : List Nat) : serLCD :=
  str.foldl (fun s (c : Nat) => s.write (c : Int)) self

/-- The method `serLCD::setBrightness(int val)`.  The macro `LCD_BACKLIGHT` of the
missing header is a parameter. -/
def serLCD.setBrightness (self : serLCD) (LCD_BACKLIGHT : Int) (val : Int) : serLCD :=
  if val ≥ 1 ∧ val ≤ 30 then
    self.specialCommand (Int.lor LCD_BACKLIGHT (val - 1))
  else
    self

/-- The method `serLCD::clear()`. -/
def serLCD.clear (self : serLCD) : serLCD :=
  self.command LCD_CLEARDISPLAY

/-- The method `serLCD::setCursor(int row, int col)`.  The table lookup is checked: an
index outside the table yields `none`. -/
def serLCD.setCursor (self : serLCD) (row col : Int) : Option serLCD :=
  if (row > 0 ∧ row < 3) ∧ (col > 0 ∧ col < 17) then
    (row_offsets[self._rowoffset]?).bind fun offsets =>
      (offsets[(row - 1).toNat]?).bind fun offset =>
        some (self.command (Int.lor LCD_SETDDRAMADDR ((col - 1) + offset)))
  else
    some self

/-- The method `serLCD::clearLine(int num)`; the printed literal is 16 spaces. -/
def serLCD.clearLine (self : serLCD) (num : Int) : Option serLCD :=
  if num > 0 ∧ num ≤ (self._numlines : Int) then
    (self.setCursor num 1).bind fun s1 =>
      (s1.print (List.replicate 16 0x20)).setCursor num 1
  else
    some self

/-- The method `serLCD::selectLine(int num)`. -/
def serLCD.selectLine (self : serLCD) (num : Int) : Option serLCD :=
  if num > 0 ∧ num ≤ (self._numlines : Int) then
    self.setCursor num 1
  else
    some self

/-- One pass of the loop body of `serLCD::createChar`, for `i`, `i+1`, ... (`n` passes):
`command(LCD_SETCGRAMADDR | (location << 3) | i); write(charmap[i]);`.  Reading
`charmap[i]` is checked. -/
def serLCD.createChar.loop (location : Int) (charmap : List Nat) :
    serLCD → Nat → Nat → Option serLCD
  | s, _, 0 => some s
  | s, i, n + 1 =>
    let s1 := s.command (Int.lor (Int.lor LCD_SETCGRAMADDR (location <<< (3 : Int))) (i : Int))
    (charmap[i]?).bind fun b =>
      serLCD.createChar.loop location charmap (s1.write b) (i + 1) n

/-- The method `serLCD::createChar(int location, uint8_t charmap[])`. -/
def serLCD.createChar (self : serLCD) (location : Int) (charmap : List Nat) : Option serLCD :=
  let location := location - 1
  let location := Int.land location 0x07
  serLCD.createChar.loop location charmap self 0 8

/-- The method `serLCD::begin()`.  The start-up delay and the opening of the transport
at 9600 baud put no byte on the transport.  The macro `LCD_BACKLIGHT` of the missing
header is a parameter. -/
def serLCD.begin (self : serLCD) (LCD_BACKLIGHT : Int) : serLCD :=
  -- clear the display
  let s1 := self.clear
  -- set brightness to full
  s1.setBrightness LCD_BACKLIGHT 30

/-- The method `serLCD::leftToRight()`; the macros `LCD_ENTRYMODESET` and `LCD_ENTRYLEFT`
of the missing header are parameters.  The flag field holds 8 bits. -/
def serLCD.leftToRight (self : serLCD) (LCD_ENTRYMODESET LCD_ENTRYLEFT : Int) : serLCD :=
  let s1 := { self with _displaymode := uint8 (Int.lor self._displaymode LCD_ENTRYLEFT) }
  s1.command (Int.lor LCD_ENTRYMODESET s1._displaymode)

/-- The method `serLCD::rightToLeft()`. -/
def serLCD.rightToLeft (self : serLCD) (LCD_ENTRYMODESET LCD_ENTRYLEFT : Int) : serLCD :=
  let s1 := { self with
    _displaymode := uint8 (Int.land self._displaymode (Int.lnot LCD_ENTRYLEFT)) }
  s1.command (Int.lor LCD_ENTRYMODESET s1._displaymode)

/-- The method `serLCD::blink()`; the macros `LCD_DISPLAYCONTROL` and `LCD_BLINKON` of
the missing header are parameters. -/
def serLCD.blink (self : serLCD) (LCD_DISPLAYCONTROL LCD_BLINKON : Int) : serLCD :=
  let s1 := { self with _displaycontrol := uint8 (Int.lor self._displaycontrol LCD_BLINKON) }
  s1.command (Int.lor LCD_DISPLAYCONTROL s1._displaycontrol)

/-- The method `serLCD::noBlink()`. -/
def serLCD.noBlink (self : serLCD) (LCD_DISPLAYCONTROL LCD_BLINKON : Int) : serLCD :=
  let s1 := { self with
    _displaycontrol := uint8 (Int.land self._displaycontrol (Int.lnot LCD_BLINKON)) }
  s1.command (Int.lor LCD_DISPLAYCONTROL s1._displaycontrol)

/-- The method `serLCD::cursor()`; the macro `LCD_CURSORON` is a parameter. -/
def serLCD.cursor (self : serLCD) (LCD_DISPLAYCONTROL LCD_CURSORON : Int) : serLCD :=
  let s1 := { self with _displaycontrol := uint8 (Int.lor self._displaycontrol LCD_CURSORON) }
  s1.command (Int.lor LCD_DISPLAYCONTROL s1._displaycontrol)

/-- The method `serLCD::noCursor()`. -/
def serLCD.noCursor (self : serLCD) (LCD_DISPLAYCONTROL LCD_CURSORON : Int) : serLCD :=
  let s1 := { self with
    _displaycontrol := uint8 (Int.land self._displaycontrol (Int.lnot LCD_CURSORON)) }
  s1.command (Int.lor LCD_DISPLAYCONTROL s1._displaycontrol)

/-- The method `serLCD::display()`; the macro `LCD_DISPLAYON` is a parameter. -/
def serLCD.display (self : serLCD) (LCD_DISPLAYCONTROL LCD_DISPLAYON : Int) : serLCD :=
  let s1 := { self with _displaycontrol := uint8 (Int.lor self._displaycontrol LCD_DISPLAYON) }
  s1.command (Int.lor LCD_DISPLAYCONTROL s1._displaycontrol)

/-- The method `serLCD::noDisplay()`. -/
def serLCD.noDisplay (self : serLCD) (LCD_DISPLAYCONTROL LCD_DISPLAYON : Int) : serLCD :=
  let s1 := { self with
    _displaycontrol := uint8 (Int.land self._displaycontrol (Int.lnot LCD_DISPLAYON)) }
  s1.command (Int.lor LCD_DISPLAYCONTROL s1._displaycontrol)

/-- The method `serLCD::printCustomChar(int num)`. -/
def serLCD.printCustomChar (self : serLCD) (num : Int) : serLCD :=
  self.write (num - 1)

/-- The byte pair the specification expects from a cursor-set for `(row, col)` under
row offset `offset`: the command marker `0xFE`, then
`LCD_SETDDRAMADDR | ((col-1) + table[offset][row-1])`. -/
def spec_cursorPair (offset : Nat) (row col : Int) : List Nat :=
  [0xFE, Int.toNat (Int.lor LCD_SETDDRAMADDR
    ((col - 1) + (row_offsets.getD offset []).getD (row - 1).toNat 0))]

/-- The bytes the specification expects from `createChar` for effective slot `e`: for
i = 0..7 in order, the command marker `0xFE`, the address byte `0x40 | (e << 3) | i` and
the glyph row `glyph[i]`. -/
def spec_glyphGroups (e : Nat) (glyph : List Nat) : List Nat :=
  (List.range 8).flatMap fun i => [0xFE, 0x40 ||| (e <<< 3) ||| i, glyph.getD i 0]

/-! ## The buffered driver -/

/-- The Arduino core macro `constrain(amt, low, high)`, against which the source compiles
(it is not defined in the sources):
`((amt)<(low)?(low):((amt)>(high)?(high):(amt)))`.  It limits its first argument. -/
def constrain (amt low high : Int) : Int :=
  if amt < low then low else if amt > high then high else amt

/-- Checked store `_buf[i] = v` into the 32-byte buffer: `none` when `i` is outside
the buffer. -/
def storeAt (buf : Fin 32 → Nat) (i : Int) (v : Nat) : Option (Fin 32 → Nat) :=
  if h : 0 ≤ i ∧ i < 32 then
    some (Function.update buf ⟨i.toNat, by omega⟩ v)
  else
    none

/-- The passes of `for (...; i++) _buf[i] = 0;` starting at index `i`, `n` passes. -/
def zeroLoop.go : (Fin 32 → Nat) → Int → Nat → Option (Fin 32 → Nat)
  | buf, _, 0 => some buf
  | buf, i, n + 1 => (storeAt buf i 0).bind fun buf1 => zeroLoop.go buf1 (i + 1) n

/-- The loop `for (int i = lo; i < hi; i++) _buf[i] = 0;`: it makes `hi - lo` passes
(none when `hi ≤ lo`). -/
def zeroLoop (buf : Fin 32 → Nat) (lo hi : Int) : Option (Fin 32 → Nat) :=
  zeroLoop.go buf lo (hi - lo).toNat

/-- State of a `serLCD_buffered` object: the inherited `serLCD` state, the 32-byte
buffer `_buf` and the buffer position `_bufpos`. -/
structure serLCD_buffered extends serLCD where
  _buf : Fin 32 → Nat
  _bufpos : Int

/-- The method `serLCD_buffered::write(uint8_t b)`.  The store is checked. -/
def serLCD_buffered.write (self : serLCD_buffered) (b : Int) : Option serLCD_buffered :=
  if self._bufpos < 32 then
    (storeAt self._buf self._bufpos (uint8 b)).bind fun buf =>
      some { self with _buf := buf, _bufpos := self._bufpos + 1 }
  else
    some { self with _bufpos := self._bufpos % 32 }

/-- The method `serLCD_buffered::home()`. -/
def serLCD_buffered.home (self : serLCD_buffered) : serLCD_buffered :=
  { self with _bufpos := 0 }

/-- The method `serLCD_buffered::clear()`. -/
def serLCD_buffered.clear (self : serLCD_buffered) : Option serLCD_buffered :=
  (zeroLoop self._buf 0 32).bind fun buf => some { self with _buf := buf }

/-- The method `serLCD_buffered::clearLine(int l)`; the macro `constrain` is a
parameter. -/
def serLCD_buffered.clearLine (constrain : Int → Int → Int → Int)
    (self : serLCD_buffered) (l : Int) : Option serLCD_buffered :=
  let l := constrain 1 16 l
  (zeroLoop self._buf ((l - 1) * 16) ((l - 1) * 16 + 16)).bind fun buf =>
    some { self with _buf := buf }

/-- The method `serLCD_buffered::setCursor(int x, int y)`; the macro `constrain` is a
parameter. -/
def serLCD_buffered.setCursor (constrain : Int → Int → Int → Int)
    (self : serLCD_buffered) (x y : Int) : serLCD_buffered :=
  { self with _bufpos := constrain 0 15 (x - 1) + constrain 0 1 (y - 1) }

/-- The method `serLCD_buffered::selectLine(int l)`. -/
def serLCD_buffered.selectLine (constrain : Int → Int → Int → Int)
    (self : serLCD_buffered) (l : Int) : serLCD_buffered :=
  self.setCursor constrain 1 l

/-- A call of one of the buffered operations, with its arguments. -/
inductive BufferedOp where
  | write (b : Int)
  | home
  | clear
  | clearLine (l : Int)
  | setCursor (x y : Int)
  | selectLine (l : Int)
deriving DecidableEq, Repr

/-- Performs one call on a buffered driver; `none` when a buffer access of the call
is out of bounds. -/
def serLCD_buffered.step (constrain : Int → Int → Int → Int)
    (self : serLCD_buffered) : BufferedOp → Option serLCD_buffered
  | .write b => self.write b
  | .home => some self.home
  | .clear => self.clear
  | .clearLine l => self.clearLine constrain l
  | .setCursor x y => some (self.setCursor constrain x y)
  | .selectLine l => some (self.selectLine constrain l)

/-- Performs a sequence of calls, first to last. -/
def serLCD_buffered.run (constrain : Int → Int → Int → Int) :
    serLCD_buffered → List BufferedOp → Option serLCD_buffered
  | s, [] => some s
  | s, op :: ops => (s.step constrain op).bind fun s1 => s1.run constrain ops

/-- Writes the bytes of a list, first to last, through the buffered `write`. -/
def serLCD_buffered.writeAll : serLCD_buffered → List Nat → Option serLCD_buffered
  | s, [] => some s
  | s, b :: bs => (s.write (b : Int)).bind fun s1 => s1.writeAll bs

/-- A buffered driver right after construction, with the given buffer content and
buffer position. -/
def serLCD_buffered.construct (serial : List Nat) (displaymode displaycontrol : Nat)
    (buf : Fin 32 → Nat) (bufpos : Int) : serLCD_buffered :=
  { toserLCD := serLCD.construct serial displaymode displaycontrol
    _buf := buf
    _bufpos := bufpos }

/-- Checked read `_buf[i]`: `none` when `i` is outside the buffer. -/
def loadAt (buf : Fin 32 → Nat) (i : Nat) : Option Nat :=
  if h : i < 32 then some (buf ⟨i, h⟩) else none

/-- The bytes of the zero-terminated string that starts at `_buf[i]`: the bytes read, in
order, up to and not including the first zero byte.  Each read is checked; `fuel` bounds
the number of reads. -/
def cstring : (Fin 32 → Nat) → Nat → Nat → Option (List Nat)
  | _, _, 0 => none
  | buf, i, fuel + 1 =>
    (loadAt buf i).bind fun c =>
      if c = 0 then some [] else (cstring buf (i + 1) fuel).map fun rest => c :: rest

/-- The method `serLCD_buffered::update()`: `_serialobject.write(_buf)`.  The call hands
the transport the array alone, without a length: the one-argument `write` of the serial
transport takes a zero-terminated string and sends its bytes.  33 reads reach the end of
the buffer. -/
def serLCD_buffered.update (self : serLCD_buffered) : Option serLCD_buffered :=
  (cstring self._buf 0 33).bind fun bytes =>
    some { self with _serialobject := self._serialobject ++ bytes }

/-! ## Auxiliary facts -/

theorem uint8_natCast_of_lt (b : Nat) (h : b < 256) : uint8 (b : Int) = b := by
  unfold uint8
  omega

theorem nat_ldiff_seven (m : Nat) : Nat.ldiff 7 m = 7 - m % 8 := by
  have h : Nat.ldiff 7 m = 7 ^^^ (m &&& 7) := by
    apply Nat.eq_of_testBit_eq
    intro i
    rw [Nat.testBit_ldiff, Nat.testBit_xor, Nat.testBit_and]
    cases Nat.testBit 7 i <;> cases Nat.testBit m i <;> rfl
  have h7 : (7 : Nat) = 2 ^ 3 - 1 := by norm_num
  rw [h]
  conv_lhs => rw [h7, Nat.and_pow_two_sub_one_eq_mod]
  have hlt : m % 8 < 8 := Nat.mod_lt _ (by norm_num)
  have e : m % 2 ^ 3 = m % 8 := by norm_num
  rw [e]
  generalize m % 8 = r at hlt
  interval_cases r <;> decide

/-- In C, `x & 0x07` is the residue of `x` modulo 8, also for negative `x`. -/
theorem int_land_seven (x : Int) : Int.land x 7 = x % 8 := by
  cases x with
  | ofNat m =>
    show ((m &&& 7 : Nat) : Int) = (m : Int) % 8
    have h7 : (7 : Nat) = 2 ^ 3 - 1 := by norm_num
    rw [h7, Nat.and_pow_two_sub_one_eq_mod]
    norm_num
  | negSucc m =>
    show ((Nat.ldiff 7 m : Nat) : Int) = Int.negSucc m % 8
    rw [nat_ldiff_seven, Int.negSucc_eq]
    omega

theorem uint8_lt (x : Int) : uint8 x < 256 := by
  unfold uint8
  omega

theorem uint8_uint8 (x : Int) : uint8 (uint8 x : Int) = uint8 x :=
  uint8_natCast_of_lt _ (uint8_lt x)

theorem serLCD_command_eq (s : serLCD) (v : Int) :
    s.command v = { s with _serialobject := s._serialobject ++ [0xFE, uint8 v] } := by
  simp only [serLCD.command, serLCD.write, uint8_uint8, List.append_assoc, List.singleton_append]
  rfl

theorem serLCD_specialCommand_eq (s : serLCD) (v : Int) :
    s.specialCommand v = { s with _serialobject := s._serialobject ++ [0x7C, uint8 v] } := by
  simp only [serLCD.specialCommand, serLCD.write, uint8_uint8, List.append_assoc,
    List.singleton_append]
  rfl

/-! ## The direct driver: cursor, brightness, line clearing -/

theorem serLCD_setCursor_of_valid (s : serLCD) (row col : Int)
    (hoff : s._rowoffset = 0 ∨ s._rowoffset = 1)
    (hv : (row = 1 ∨ row = 2) ∧ 1 ≤ col ∧ col ≤ 16) :
    s.setCursor row col =
      some { s with _serialobject :=
        s._serialobject ++ spec_cursorPair s._rowoffset row col } := by
  obtain ⟨hrow, hc1, hc2⟩ := hv
  have hg : (row > 0 ∧ row < 3) ∧ (col > 0 ∧ col < 17) := by omega
  unfold serLCD.setCursor
  rw [if_pos hg]
  obtain ⟨log, nl, nc, ro, dm, dc⟩ := s
  simp only at hoff
  simp only [serLCD_command_eq, spec_cursorPair]
  rcases hoff with ho | ho <;> rcases hrow with hr | hr <;> subst hr <;> subst ho <;>
    interval_cases col <;> rfl

theorem serLCD_setCursor_of_invalid (s : serLCD) (row col : Int)
    (hv : ¬ ((row = 1 ∨ row = 2) ∧ 1 ≤ col ∧ col ≤ 16)) :
    s.setCursor row col = some s := by
  have hg : ¬ ((row > 0 ∧ row < 3) ∧ (col > 0 ∧ col < 17)) := by omega
  unfold serLCD.setCursor
  rw [if_neg hg]

/-- C1: on a driver whose row offset is 0 or 1, `setCursor(row, col)` with row in {1,2}
and col in 1..16 appends to the transport exactly the two bytes
`0xFE, LCD_SETDDRAMADDR | ((col-1) + table[offset][row-1])` and changes nothing else;
for any other `(row, col)` the state, and so the transport, is unchanged. -/
theorem serLCD_setCursor_transport (s : serLCD) (row col : Int)
    (hoff : s._rowoffset = 0 ∨ s._rowoffset = 1) :
    s.setCursor row col =
      if (row = 1 ∨ row = 2) ∧ 1 ≤ col ∧ col ≤ 16 then
        some { s with _serialobject :=
          s._serialobject ++ spec_cursorPair s._rowoffset row col }
      else
        some s := by
  by_cases hv : (row = 1 ∨ row = 2) ∧ 1 ≤ col ∧ col ≤ 16
  · rw [if_pos hv]
    exact serLCD_setCursor_of_valid s row col hoff hv
  · rw [if_neg hv]
    exact serLCD_setCursor_of_invalid s row col hv

theorem serLCD_setCursor_transport_witness :
    ((serLCD.construct [] 0 0).setCursor 2 5 =
      some { serLCD.construct [] 0 0 with _serialobject := [0xFE, 0xC4] }) ∧
    ((serLCD.construct [] 0 0).setCursor 3 5 = some (serLCD.construct [] 0 0)) :=
  ⟨(serLCD_setCursor_transport (serLCD.construct [] 0 0) 2 5 (Or.inl rfl)).trans (by decide),
   (serLCD_setCursor_transport (serLCD.construct [] 0 0) 3 5 (Or.inl rfl)).trans (by decide)⟩

theorem int_lor_zero (x : Int) : Int.lor x 0 = x := by
  cases x with
  | ofNat m =>
    show ((m ||| 0 : Nat) : Int) = (m : Int)
    rw [Nat.or_zero]
  | negSucc m =>
    show Int.negSucc (Nat.ldiff m 0) = Int.negSucc m
    have h : Nat.ldiff m 0 = m := by
      apply Nat.eq_of_testBit_eq
      intro i
      rw [Nat.testBit_ldiff, Nat.zero_testBit]
      simp
    rw [h]

/-- For brightness 1 the payload byte is the low byte of `LCD_BACKLIGHT`; it is `1 - 1 = 0`
only when that low byte is 0. -/
theorem serLCD_setBrightness_one_payload (s : serLCD) (LCD_BACKLIGHT : Int) :
    (s.setBrightness LCD_BACKLIGHT 1)._serialobject
      = s._serialobject ++ [0x7C, uint8 LCD_BACKLIGHT] := by
  have hg : (1 : Int) ≥ 1 ∧ (1 : Int) ≤ 30 := by decide
  unfold serLCD.setBrightness
  rw [if_pos hg, serLCD_specialCommand_eq]
  have h0 : (1 : Int) - 1 = 0 := by decide
  rw [h0, int_lor_zero]

/-- C2 (as stated, refuted): with the backlight command base `0x80`, `setBrightness(1)`
on a fresh driver sends the payload byte `0x80`, not `1 - 1 = 0`. -/
theorem serLCD_setBrightness_payload_counterexample :
    ((serLCD.construct [] 0 0).setBrightness 0x80 1)._serialobject = [0x7C, 0x80] ∧
    ((serLCD.construct [] 0 0).setBrightness 0x80 1)._serialobject
      ≠ [] ++ [0x7C, Int.toNat (1 - 1)] := by
  decide

/-- C2 (amended): for every value of `LCD_BACKLIGHT` and every v with 1 ≤ v ≤ 30,
`setBrightness(v)` appends to the transport exactly two bytes, the special-command
marker `0x7C` and the low 8 bits of `LCD_BACKLIGHT | (v-1)`, and changes nothing else;
with `LCD_BACKLIGHT = 0x80` that payload is `0x80 + (v-1)`. -/
theorem serLCD_setBrightness_transport (s : serLCD) (LCD_BACKLIGHT v : Int)
    (h1 : 1 ≤ v) (h30 : v ≤ 30) :
    s.setBrightness LCD_BACKLIGHT v =
        { s with _serialobject :=
            s._serialobject ++ [0x7C, uint8 (Int.lor LCD_BACKLIGHT (v - 1))] } ∧
    (s.setBrightness 0x80 v)._serialobject
        = s._serialobject ++ [0x7C, Int.toNat (0x80 + (v - 1))] := by
  have hg : ∀ bl : Int, s.setBrightness bl v =
      { s with _serialobject := s._serialobject ++ [0x7C, uint8 (Int.lor bl (v - 1))] } := by
    intro bl
    unfold serLCD.setBrightness
    rw [if_pos ⟨h1, h30⟩, serLCD_specialCommand_eq]
  refine ⟨hg _, ?_⟩
  rw [hg]
  interval_cases v <;> rfl

theorem serLCD_setBrightness_transport_witness :
    (serLCD.construct [5] 0 0).setBrightness 0x80 30
        = { serLCD.construct [5] 0 0 with _serialobject := [5, 0x7C, 0x9D] } ∧
    ((serLCD.construct [5] 0 0).setBrightness 0x80 30)._serialobject = [5, 0x7C, 0x9D] :=
  ⟨((serLCD_setBrightness_transport (serLCD.construct [5] 0 0) 0x80 30
      (by decide) (by decide)).1).trans (by decide),
   ((serLCD_setBrightness_transport (serLCD.construct [5] 0 0) 0x80 30
      (by decide) (by decide)).2).trans (by decide)⟩

/-- C3: for every v with v < 1 or v > 30, `setBrightness(v)` returns the state it was
given: no byte is written and no field changes. -/
theorem serLCD_setBrightness_out_of_range (s : serLCD) (LCD_BACKLIGHT v : Int)
    (h : v < 1 ∨ v > 30) :
    s.setBrightness LCD_BACKLIGHT v = s := by
  have hg : ¬ (v ≥ 1 ∧ v ≤ 30) := by omega
  unfold serLCD.setBrightness
  rw [if_neg hg]

theorem serLCD_setBrightness_out_of_range_witness :
    (serLCD.construct [1, 2] 3 4).setBrightness 0x80 31 = serLCD.construct [1, 2] 3 4 ∧
    (serLCD.construct [1, 2] 3 4).setBrightness 0x80 0 = serLCD.construct [1, 2] 3 4 :=
  ⟨serLCD_setBrightness_out_of_range (serLCD.construct [1, 2] 3 4) 0x80 31 (Or.inr (by decide)),
   serLCD_setBrightness_out_of_range (serLCD.construct [1, 2] 3 4) 0x80 0 (Or.inl (by decide))⟩

theorem serLCD_print_eq (s : serLCD) (str : List Nat) (h : ∀ c ∈ str, c < 256) :
    s.print str = { s with _serialobject := s._serialobject ++ str } := by
  unfold serLCD.print
  induction str generalizing s with
  | nil => simp
  | cons c cs ih =>
    have hc : c < 256 := h c (List.mem_cons_self _ _)
    have hcs : ∀ d ∈ cs, d < 256 := fun d hd => h d (List.mem_cons_of_mem _ hd)
    rw [List.foldl_cons, ih _ hcs]
    simp [serLCD.write, uint8_natCast_of_lt c hc]

/-- C4: on a driver constructed with the defaults (2 lines, 16 characters, row offset 0),
`clearLine(n)` with n in 1..2 appends to the transport exactly the cursor-set pair for
(row n, column 1), then 16 bytes `0x20`, then the same pair again (20 bytes) and changes
nothing else; for every other n the state, and so the transport, is unchanged. -/
theorem serLCD_clearLine_transport (serial : List Nat) (dm dc : Nat) (n : Int) :
    (serLCD.construct serial dm dc).clearLine n =
      (if 1 ≤ n ∧ n ≤ 2 then
        some { serLCD.construct serial dm dc with _serialobject :=
          serial ++ (spec_cursorPair 0 n 1 ++ List.replicate 16 0x20 ++ spec_cursorPair 0 n 1) }
      else
        some (serLCD.construct serial dm dc)) ∧
    (spec_cursorPair 0 n 1 ++ List.replicate 16 0x20 ++ spec_cursorPair 0 n 1).length = 20 := by
  refine ⟨?_, by simp [spec_cursorPair]⟩
  by_cases hv : 1 ≤ n ∧ n ≤ 2
  · rw [if_pos hv]
    have hg : n > 0 ∧ n ≤ ((serLCD.construct serial dm dc)._numlines : Int) := by
      simp only [serLCD.construct, LCD_2LINE]
      omega
    have hrow : n = 1 ∨ n = 2 := by omega
    unfold serLCD.clearLine
    rw [if_pos hg, serLCD_setCursor_of_valid _ _ _ (Or.inl rfl) ⟨hrow, by decide, by decide⟩,
      Option.some_bind, serLCD_print_eq _ _ (by simp),
      serLCD_setCursor_of_valid _ _ _ (Or.inl rfl) ⟨hrow, by decide, by decide⟩]
    simp [serLCD.construct, List.append_assoc]
  · rw [if_neg hv]
    have hg : ¬ (n > 0 ∧ n ≤ ((serLCD.construct serial dm dc)._numlines : Int)) := by
      simp only [serLCD.construct, LCD_2LINE]
      omega
    unfold serLCD.clearLine
    rw [if_neg hg]

/-! ## The direct driver: custom glyphs and the end-to-end sequence -/

theorem serLCD_createChar_loop_eq (location : Int) (charmap : List Nat)
    (hbytes : ∀ b ∈ charmap, b < 256) (n : Nat) :
    ∀ (s : serLCD) (i : Nat), i + n ≤ charmap.length →
      serLCD.createChar.loop location charmap s i n =
        some { s with _serialobject := s._serialobject ++
          (List.range' i n).flatMap fun j =>
            [0xFE, uint8 (Int.lor (Int.lor LCD_SETCGRAMADDR (location <<< (3 : Int))) (j : Int)),
              charmap.getD j 0] } := by
  induction n with
  | zero =>
    intro s i _
    simp [serLCD.createChar.loop]
  | succ n ih =>
    intro s i hi
    have hlt : i < charmap.length := by omega
    have hb : charmap[i] < 256 := hbytes _ (List.getElem_mem hlt)
    rw [serLCD.createChar.loop]
    simp only [List.getElem?_eq_getElem hlt, Option.some_bind]
    rw [ih _ (i + 1) (by omega), List.range'_succ, List.flatMap_cons]
    simp [serLCD_command_eq, serLCD.write, uint8_natCast_of_lt _ hb,
      List.getElem?_eq_getElem hlt]

theorem createChar_address_byte (r : Int) (h0 : 0 ≤ r) (h8 : r < 8) (j : Nat) (hj : j < 8) :
    uint8 (Int.lor (Int.lor LCD_SETCGRAMADDR (r <<< (3 : Int))) (j : Int))
      = 0x40 ||| (r.toNat <<< 3) ||| j := by
  interval_cases r <;> interval_cases j <;> rfl

/-- C5: for every integer slot and every glyph of 8 bytes, with e = (slot-1) & 0x07
(a value in 0..7), `createChar(slot, glyph)` appends to the transport exactly the 8
groups `0xFE, 0x40 | (e<<3) | i, glyph[i]` for i = 0..7 in order (24 bytes) and changes
nothing else. -/
theorem serLCD_createChar_transport (s : serLCD) (slot : Int) (glyph : List Nat)
    (hlen : glyph.length = 8) (hbytes : ∀ b ∈ glyph, b < 256) :
    ((Int.land (slot - 1) 0x07).toNat : Int) = Int.land (slot - 1) 0x07 ∧
    (Int.land (slot - 1) 0x07).toNat < 8 ∧
    s.createChar slot glyph =
      some { s with _serialobject :=
        s._serialobject ++ spec_glyphGroups (Int.land (slot - 1) 0x07).toNat glyph } ∧
    (spec_glyphGroups (Int.land (slot - 1) 0x07).toNat glyph).length = 24 := by
  have hr0 : 0 ≤ (slot - 1) % 8 := Int.emod_nonneg _ (by decide)
  have hr8 : (slot - 1) % 8 < 8 := Int.emod_lt_of_pos _ (by decide)
  unfold serLCD.createChar
  simp only [int_land_seven]
  generalize (slot - 1) % 8 = r at hr0 hr8
  refine ⟨by omega, by omega, ?_, by simp [spec_glyphGroups, List.range_succ]⟩
  rw [serLCD_createChar_loop_eq r glyph hbytes 8 s 0 (by omega)]
  have hgroups : ((List.range' 0 8).flatMap fun j =>
        [0xFE, uint8 (Int.lor (Int.lor LCD_SETCGRAMADDR (r <<< (3 : Int))) (j : Int)),
          glyph.getD j 0]) = spec_glyphGroups r.toNat glyph := by
    unfold spec_glyphGroups
    rw [List.range_eq_range']
    apply List.flatMap_congr
    intro j hj
    have hj8 : j < 8 := by
      have := List.mem_range'_1.mp hj
      omega
    rw [createChar_address_byte r hr0 hr8 j hj8]
  rw [hgroups]

theorem serLCD_createChar_transport_witness :
    (serLCD.construct [] 0 0).createChar 10 [1, 2, 3, 4, 5, 6, 7, 8] =
      some { serLCD.construct [] 0 0 with _serialobject :=
        [0xFE, 0x48, 1, 0xFE, 0x49, 2, 0xFE, 0x4A, 3, 0xFE, 0x4B, 4,
         0xFE, 0x4C, 5, 0xFE, 0x4D, 6, 0xFE, 0x4E, 7, 0xFE, 0x4F, 8] } :=
  ((serLCD_createChar_transport (serLCD.construct [] 0 0) 10 [1, 2, 3, 4, 5, 6, 7, 8]
      rfl (by decide)).2.2.1).trans (by decide)

/-- C6: on a driver constructed with the defaults and an empty transport log, the calls
`clear(); setCursor(1,1); write('H'); write('I')` leave the transport log equal to
`0xFE, 0x01, 0xFE, 0x80, 'H', 'I'`. -/
theorem serLCD_end_to_end (dm dc : Nat) :
    ((serLCD.construct [] dm dc).clear.setCursor 1 1).map
        (fun s => ((s.write ('H'.toNat : Int)).write ('I'.toNat : Int))._serialobject)
      = some [0xFE, 0x01, 0xFE, 0x80, 'H'.toNat, 'I'.toNat] := by
  rfl

/-! ## The buffered driver: auxiliary facts -/

theorem storeAt_of_lt (buf : Fin 32 → Nat) (p : Nat) (hp : p < 32) (v : Nat) :
    storeAt buf (p : Int) v = some (Function.update buf ⟨p, hp⟩ v) := by
  have h : 0 ≤ (p : Int) ∧ (p : Int) < 32 := by omega
  unfold storeAt
  rw [dif_pos h]
  rfl

theorem zeroLoop_go_eq (n : Nat) :
    ∀ (buf : Fin 32 → Nat) (i : Nat), i + n ≤ 32 →
      zeroLoop.go buf (i : Int) n =
        some (fun j => if i ≤ j.val ∧ j.val < i + n then 0 else buf j) := by
  induction n with
  | zero =>
    intro buf i _
    rw [zeroLoop.go]
    congr 1
    funext j
    rw [if_neg (by omega)]
  | succ n ih =>
    intro buf i hi
    have hlt : i < 32 := by omega
    rw [zeroLoop.go, storeAt_of_lt buf i hlt, Option.some_bind]
    have hcast : ((i : Int) + 1) = ((i + 1 : Nat) : Int) := by push_cast; rfl
    rw [hcast, ih _ (i + 1) (by omega)]
    congr 1
    funext j
    by_cases hji : j.val = i
    · have hj : j = ⟨i, hlt⟩ := Fin.ext hji
      subst hj
      simp
    · have hne : j ≠ ⟨i, hlt⟩ := fun h => hji (by rw [h])
      rw [Function.update_noteq hne]
      by_cases h1 : i + 1 ≤ j.val ∧ j.val < i + 1 + n
      · rw [if_pos h1, if_pos (by omega)]
      · rw [if_neg h1, if_neg (by omega)]

theorem zeroLoop_eq (buf : Fin 32 → Nat) (lo hi : Nat) (hle : lo ≤ hi) (hhi : hi ≤ 32) :
    zeroLoop buf (lo : Int) (hi : Int) =
      some (fun j => if lo ≤ j.val ∧ j.val < hi then 0 else buf j) := by
  unfold zeroLoop
  have hn : ((hi : Int) - (lo : Int)).toNat = hi - lo := by omega
  rw [hn, zeroLoop_go_eq (hi - lo) buf lo (by omega)]
  congr 1
  funext j
  by_cases h1 : lo ≤ j.val ∧ j.val < hi
  · rw [if_pos h1, if_pos (by omega)]
  · rw [if_neg h1, if_neg (by omega)]

theorem serLCD_buffered_write_of_lt (s : serLCD_buffered) (p : Nat) (hp : p < 32)
    (hpos : s._bufpos = (p : Int)) (b : Int) :
    s.write b = some { s with _buf := Function.update s._buf ⟨p, hp⟩ (uint8 b),
                              _bufpos := ((p + 1 : Nat) : Int) } := by
  have h : s._bufpos < 32 := by omega
  unfold serLCD_buffered.write
  rw [if_pos h, hpos, storeAt_of_lt s._buf p hp, Option.some_bind]
  push_cast
  rfl

theorem serLCD_buffered_write_of_ge (s : serLCD_buffered) (h : 32 ≤ s._bufpos) (b : Int) :
    s.write b = some { s with _bufpos := s._bufpos % 32 } := by
  have h1 : ¬ s._bufpos < 32 := by omega
  unfold serLCD_buffered.write
  rw [if_neg h1]

theorem serLCD_buffered_writeAll_eq (bs : List Nat) :
    ∀ (s : serLCD_buffered) (p : Nat), s._bufpos = (p : Int) → p + bs.length ≤ 32 →
      (∀ b ∈ bs, b < 256) →
      s.writeAll bs =
        some { s with
          _buf := fun j =>
            if p ≤ j.val ∧ j.val < p + bs.length then bs.getD (j.val - p) 0 else s._buf j,
          _bufpos := ((p + bs.length : Nat) : Int) } := by
  induction bs with
  | nil =>
    intro s p hpos _ _
    rw [serLCD_buffered.writeAll]
    have hbuf : (fun j : Fin 32 =>
        if p ≤ j.val ∧ j.val < p + ([] : List Nat).length then ([] : List Nat).getD (j.val - p) 0
        else s._buf j) = s._buf := by
      funext j
      rw [if_neg (by simp)]
    rw [hbuf, List.length_nil, Nat.add_zero, ← hpos]
  | cons b bs ih =>
    intro s p hpos hlen hbytes
    have hlen1 : p + (bs.length + 1) ≤ 32 := by simpa using hlen
    have hp : p < 32 := by omega
    have hb : b < 256 := hbytes b (List.mem_cons_self _ _)
    have hbs : ∀ c ∈ bs, c < 256 := fun c hc => hbytes c (List.mem_cons_of_mem _ hc)
    rw [serLCD_buffered.writeAll, serLCD_buffered_write_of_lt s p hp hpos, Option.some_bind,
      ih _ (p + 1) rfl (by omega) hbs, uint8_natCast_of_lt b hb]
    congr 1
    have hbuf : (fun j : Fin 32 =>
        if p + 1 ≤ j.val ∧ j.val < p + 1 + bs.length then bs.getD (j.val - (p + 1)) 0
        else Function.update s._buf ⟨p, hp⟩ b j) =
        (fun j : Fin 32 =>
        if p ≤ j.val ∧ j.val < p + (b :: bs).length then (b :: bs).getD (j.val - p) 0
        else s._buf j) := by
      funext j
      rw [List.length_cons]
      by_cases hji : j.val = p
      · have hj : j = ⟨p, hp⟩ := Fin.ext hji
        subst hj
        rw [if_neg (by simp), if_pos (by simp)]
        simp
      · have hne : j ≠ ⟨p, hp⟩ := fun h => hji (by rw [h])
        rw [Function.update_noteq hne]
        by_cases h1 : p + 1 ≤ j.val ∧ j.val < p + 1 + bs.length
        · rw [if_pos h1, if_pos (by omega)]
          have hsub : j.val - p = (j.val - (p + 1)) + 1 := by omega
          rw [hsub, List.getD_cons_succ]
        · rw [if_neg h1, if_neg (by omega)]
    have hposeq : ((p + 1 + bs.length : Nat) : Int) = ((p + (b :: bs).length : Nat) : Int) := by
      rw [List.length_cons]
      omega
    simp only [hbuf, hposeq]

theorem serLCD_buffered_writeAll_append (xs ys : List Nat) :
    ∀ s : serLCD_buffered, s.writeAll (xs ++ ys) = (s.writeAll xs).bind fun t => t.writeAll ys := by
  induction xs with
  | nil =>
    intro s
    rw [List.nil_append, serLCD_buffered.writeAll, Option.some_bind]
  | cons x xs ih =>
    intro s
    rw [List.cons_append, serLCD_buffered.writeAll, serLCD_buffered.writeAll]
    cases s.write (x : Int) with
    | none => rfl
    | some t => simp only [Option.some_bind, ih]

theorem serLCD_buffered_writeAll_singleton (s : serLCD_buffered) (c : Nat) :
    s.writeAll [c] = s.write (c : Int) := by
  rw [serLCD_buffered.writeAll]
  cases s.write (c : Int) with
  | none => rfl
  | some t => rfl

/-! ## The buffered driver: writes and the buffer position -/

/-- C7 (as stated, refuted): writing the 33 bytes 1, 2, ..., 33 from position 0 leaves
the buffer position at 0 and `buffer[0]` equal to 1, the first byte; it does not leave
position 1 and `buffer[0]` equal to 33. -/
theorem serLCD_buffered_write_33_counterexample :
    ((serLCD_buffered.construct [] 0 0 (fun _ => 0) 0).writeAll (List.range' 1 33)).map
        (fun s => (s._bufpos, s._buf 0)) = some (0, 1) ∧
    ((serLCD_buffered.construct [] 0 0 (fun _ => 0) 0).writeAll (List.range' 1 33)).map
        (fun s => (s._bufpos, s._buf 0)) ≠ some (1, (List.range' 1 33).getD 32 0) := by
  decide

/-- C7 (amended): from buffer position 0, writing any 33 bytes b1..b33 in order succeeds
and leaves the buffer position at 0 with `buffer[i]` equal to the (i+1)-th byte for every
i in 0..31, so `buffer[0]` is b1: the 33rd call only wraps the position and stores
nothing.  One more byte b34 is then stored at `buffer[0]` and leaves the position at 1. -/
theorem serLCD_buffered_write_wraparound (s : serLCD_buffered) (bs : List Nat)
    (hpos : s._bufpos = 0) (hlen : bs.length = 33) (hbytes : ∀ b ∈ bs, b < 256) :
    s.writeAll bs = some { s with _buf := fun j => bs.getD j.val 0, _bufpos := 0 } ∧
    ∀ b34 : Nat, b34 < 256 →
      s.writeAll (bs ++ [b34]) =
        some { s with _buf := fun j => if j.val = 0 then b34 else bs.getD j.val 0,
                      _bufpos := 1 } := by
  have hsplit : bs = bs.take 32 ++ bs.drop 32 := (List.take_append_drop 32 bs).symm
  have htake : (bs.take 32).length = 32 := by
    rw [List.length_take, hlen]
    rfl
  have hdrop : (bs.drop 32).length = 1 := by
    rw [List.length_drop, hlen]
  obtain ⟨b33, hb33⟩ : ∃ c, bs.drop 32 = [c] := List.length_eq_one.mp hdrop
  have htb : ∀ b ∈ bs.take 32, b < 256 := fun b hb => hbytes b (List.mem_of_mem_take hb)
  have hbuf : (fun j : Fin 32 =>
      if 0 ≤ j.val ∧ j.val < 0 + (bs.take 32).length then (bs.take 32).getD (j.val - 0) 0
      else s._buf j) = fun j : Fin 32 => bs.getD j.val 0 := by
    funext j
    have hj : j.val < 32 := j.isLt
    rw [if_pos (by omega), Nat.sub_zero, List.getD_eq_getElem?_getD, List.getD_eq_getElem?_getD,
      List.getElem?_take_of_lt hj]
  rw [htake] at hbuf
  have e : bs = bs.take 32 ++ [b33] := by
    rw [← hb33]
    exact hsplit
  have h33 : s.writeAll bs =
      some { s with _buf := fun j => bs.getD j.val 0, _bufpos := 0 } := by
    rw [congrArg s.writeAll e, serLCD_buffered_writeAll_append,
      serLCD_buffered_writeAll_eq (bs.take 32) s 0 (by rw [hpos]; rfl) (by omega) htb,
      Option.some_bind, serLCD_buffered_writeAll_singleton,
      serLCD_buffered_write_of_ge _ (by simp only [htake]; decide)]
    simp only [htake, hbuf]
    rfl
  refine ⟨h33, ?_⟩
  intro b34 hb34
  rw [serLCD_buffered_writeAll_append, h33, Option.some_bind,
    serLCD_buffered_writeAll_singleton, serLCD_buffered_write_of_lt _ 0 (by decide) rfl,
    uint8_natCast_of_lt b34 hb34]
  congr 1
  have hbuf2 : Function.update (fun j : Fin 32 => bs.getD j.val 0) ⟨0, by decide⟩ b34
      = fun j : Fin 32 => if j.val = 0 then b34 else bs.getD j.val 0 := by
    funext j
    by_cases hj : j.val = 0
    · have hj0 : j = ⟨0, by decide⟩ := Fin.ext hj
      subst hj0
      simp
    · have hne : j ≠ ⟨0, by decide⟩ := fun h => hj (by rw [h])
      rw [Function.update_noteq hne, if_neg hj]
  simp only [hbuf2]
  rfl

theorem serLCD_buffered_write_wraparound_witness :
    ((serLCD_buffered.construct [] 0 0 (fun _ => 0) 0).writeAll (List.range' 1 33)).map
        (fun s => (s._bufpos, s._buf 0, s._buf 31)) = some (0, 1, 32) ∧
    ((serLCD_buffered.construct [] 0 0 (fun _ => 0) 0).writeAll (List.range' 1 33 ++ [34])).map
        (fun s => (s._bufpos, s._buf 0, s._buf 31)) = some (1, 34, 32) :=
  ⟨(congrArg (Option.map fun s => (s._bufpos, s._buf 0, s._buf 31))
      (serLCD_buffered_write_wraparound (serLCD_buffered.construct [] 0 0 (fun _ => 0) 0)
        (List.range' 1 33) rfl rfl (by decide)).1).trans (by decide),
   (congrArg (Option.map fun s => (s._bufpos, s._buf 0, s._buf 31))
      ((serLCD_buffered_write_wraparound (serLCD_buffered.construct [] 0 0 (fun _ => 0) 0)
        (List.range' 1 33) rfl rfl (by decide)).2 34 (by decide))).trans (by decide)⟩

theorem constrain_column_range (x : Int) : 0 ≤ constrain 0 15 x ∧ constrain 0 15 x ≤ 15 := by
  unfold constrain
  rw [if_pos (by decide)]
  decide

theorem constrain_row_range (y : Int) : 0 ≤ constrain 0 1 y ∧ constrain 0 1 y ≤ 1 := by
  unfold constrain
  rw [if_pos (by decide)]
  decide

theorem serLCD_buffered_clear_eq (s : serLCD_buffered) :
    s.clear = some { s with _buf := fun _ => 0 } := by
  have h : zeroLoop s._buf 0 32 = some (fun j => if 0 ≤ j.val ∧ j.val < 32 then 0 else s._buf j) :=
    zeroLoop_eq s._buf 0 32 (by omega) (by omega)
  have hbuf : (fun j : Fin 32 => if 0 ≤ j.val ∧ j.val < 32 then 0 else s._buf j)
      = fun _ => 0 := by
    funext j
    rw [if_pos ⟨Nat.zero_le _, j.isLt⟩]
  unfold serLCD_buffered.clear
  rw [h, Option.some_bind, hbuf]

theorem serLCD_buffered_clearLine_of_valid (constrain : Int → Int → Int → Int)
    (s : serLCD_buffered) (l : Int)
    (hl : 1 ≤ constrain 1 16 l ∧ constrain 1 16 l ≤ 2) :
    ∃ buf, s.clearLine constrain l = some { s with _buf := buf } := by
  unfold serLCD_buffered.clearLine
  have hc : constrain 1 16 l = 1 ∨ constrain 1 16 l = 2 := by omega
  rcases hc with h | h
  · have hz : zeroLoop s._buf ((1 - 1) * 16) ((1 - 1) * 16 + 16) = some _ :=
      zeroLoop_eq s._buf 0 16 (by omega) (by omega)
    simp only [h]
    rw [hz, Option.some_bind]
    exact ⟨_, rfl⟩
  · have hz : zeroLoop s._buf ((2 - 1) * 16) ((2 - 1) * 16 + 16) = some _ :=
      zeroLoop_eq s._buf 16 32 (by omega) (by omega)
    simp only [h]
    rw [hz, Option.some_bind]
    exact ⟨_, rfl⟩

theorem serLCD_buffered_clearLine_bufpos (constrain : Int → Int → Int → Int)
    (s t : serLCD_buffered) (l : Int) (h : s.clearLine constrain l = some t) :
    t._bufpos = s._bufpos := by
  unfold serLCD_buffered.clearLine at h
  simp only at h
  cases hz : zeroLoop s._buf ((constrain 1 16 l - 1) * 16) ((constrain 1 16 l - 1) * 16 + 16) with
  | none =>
    rw [hz] at h
    exact absurd h (by simp)
  | some buf =>
    rw [hz, Option.some_bind] at h
    rw [← Option.some.inj h]

theorem serLCD_buffered_step_bound (constrain : Int → Int → Int → Int)
    (hcol : ∀ x, 0 ≤ constrain 0 15 x ∧ constrain 0 15 x ≤ 15)
    (hrow : ∀ y, 0 ≤ constrain 0 1 y ∧ constrain 0 1 y ≤ 1)
    (s t : serLCD_buffered) (op : BufferedOp)
    (hs : 0 ≤ s._bufpos ∧ s._bufpos ≤ 32) (h : s.step constrain op = some t) :
    0 ≤ t._bufpos ∧ t._bufpos ≤ 32 := by
  cases op with
  | write b =>
    simp only [serLCD_buffered.step] at h
    by_cases hlt : s._bufpos < 32
    · have hp : s._bufpos = ((s._bufpos.toNat : Nat) : Int) := by omega
      rw [serLCD_buffered_write_of_lt s s._bufpos.toNat (by omega) hp b] at h
      rw [← Option.some.inj h]
      simp only
      omega
    · rw [serLCD_buffered_write_of_ge s (by omega) b] at h
      rw [← Option.some.inj h]
      simp only
      omega
  | home =>
    simp only [serLCD_buffered.step] at h
    rw [← Option.some.inj h]
    simp [serLCD_buffered.home]
  | clear =>
    simp only [serLCD_buffered.step] at h
    rw [serLCD_buffered_clear_eq] at h
    rw [← Option.some.inj h]
    exact hs
  | clearLine l =>
    simp only [serLCD_buffered.step] at h
    rw [serLCD_buffered_clearLine_bufpos constrain s t l h]
    exact hs
  | setCursor x y =>
    simp only [serLCD_buffered.step] at h
    rw [← Option.some.inj h]
    simp only [serLCD_buffered.setCursor]
    have h1 := hcol (x - 1)
    have h2 := hrow (y - 1)
    omega
  | selectLine l =>
    simp only [serLCD_buffered.step] at h
    rw [← Option.some.inj h]
    simp only [serLCD_buffered.selectLine, serLCD_buffered.setCursor]
    have h1 := hcol (1 - 1)
    have h2 := hrow (l - 1)
    omega

theorem serLCD_buffered_step_some (constrain : Int → Int → Int → Int)
    (s : serLCD_buffered) (op : BufferedOp)
    (hs : 0 ≤ s._bufpos ∧ s._bufpos ≤ 32)
    (hop : ∀ l, op = BufferedOp.clearLine l → 1 ≤ constrain 1 16 l ∧ constrain 1 16 l ≤ 2) :
    ∃ t, s.step constrain op = some t := by
  cases op with
  | write b =>
    simp only [serLCD_buffered.step]
    by_cases hlt : s._bufpos < 32
    · have hp : s._bufpos = ((s._bufpos.toNat : Nat) : Int) := by omega
      exact ⟨_, serLCD_buffered_write_of_lt s s._bufpos.toNat (by omega) hp b⟩
    · exact ⟨_, serLCD_buffered_write_of_ge s (by omega) b⟩
  | home => exact ⟨_, rfl⟩
  | clear => exact ⟨_, serLCD_buffered_clear_eq s⟩
  | clearLine l =>
    obtain ⟨buf, hbuf⟩ := serLCD_buffered_clearLine_of_valid constrain s l (hop l rfl)
    exact ⟨_, hbuf⟩
  | setCursor x y => exact ⟨_, rfl⟩
  | selectLine l => exact ⟨_, rfl⟩

theorem serLCD_buffered_run_bound (constrain : Int → Int → Int → Int)
    (hcol : ∀ x, 0 ≤ constrain 0 15 x ∧ constrain 0 15 x ≤ 15)
    (hrow : ∀ y, 0 ≤ constrain 0 1 y ∧ constrain 0 1 y ≤ 1) (ops : List BufferedOp) :
    ∀ s t : serLCD_buffered, 0 ≤ s._bufpos ∧ s._bufpos ≤ 32 →
      s.run constrain ops = some t → 0 ≤ t._bufpos ∧ t._bufpos ≤ 32 := by
  induction ops with
  | nil =>
    intro s t hs h
    rw [serLCD_buffered.run] at h
    rw [← Option.some.inj h]
    exact hs
  | cons op ops ih =>
    intro s t hs h
    rw [serLCD_buffered.run] at h
    cases hstep : s.step constrain op with
    | none =>
      rw [hstep] at h
      exact absurd h (by simp)
    | some s1 =>
      rw [hstep, Option.some_bind] at h
      exact ih s1 t (serLCD_buffered_step_bound constrain hcol hrow s s1 op hs hstep) h

theorem serLCD_buffered_run_some (constrain : Int → Int → Int → Int)
    (hcol : ∀ x, 0 ≤ constrain 0 15 x ∧ constrain 0 15 x ≤ 15)
    (hrow : ∀ y, 0 ≤ constrain 0 1 y ∧ constrain 0 1 y ≤ 1) (ops : List BufferedOp) :
    ∀ s : serLCD_buffered, 0 ≤ s._bufpos ∧ s._bufpos ≤ 32 →
      (∀ l, BufferedOp.clearLine l ∈ ops → 1 ≤ constrain 1 16 l ∧ constrain 1 16 l ≤ 2) →
      ∃ t, s.run constrain ops = some t := by
  induction ops with
  | nil =>
    intro s _ _
    exact ⟨s, rfl⟩
  | cons op ops ih =>
    intro s hs hops
    obtain ⟨s1, hstep⟩ := serLCD_buffered_step_some constrain s op hs
      (fun l hl => hops l (by rw [hl]; exact List.mem_cons_self _ _))
    obtain ⟨t, ht⟩ := ih s1
      (serLCD_buffered_step_bound constrain hcol hrow s s1 op hs hstep)
      (fun l hl => hops l (List.mem_cons_of_mem _ hl))
    refine ⟨t, ?_⟩
    rw [serLCD_buffered.run, hstep, Option.some_bind, ht]

/-- C8 (as stated, refuted): from buffer position 0, 32 calls of the buffered `write`
complete and leave the buffer position at 32, which is not below 32. -/
theorem serLCD_buffered_bufpos_counterexample :
    ((serLCD_buffered.construct [] 0 0 (fun _ => 0) 0).run constrain
        (List.replicate 32 (BufferedOp.write 0))).map (fun s => s._bufpos) = some 32 ∧
    ((serLCD_buffered.construct [] 0 0 (fun _ => 0) 0).run constrain
        (List.replicate 32 (BufferedOp.write 0))).map
          (fun s => decide (0 ≤ s._bufpos ∧ s._bufpos < 32)) = some false := by
  decide

/-- C8 (amended): for every `constrain` whose results for bounds (0,15) lie in 0..15 and
for bounds (0,1) lie in 0..1, starting from buffer position 0, after every finite sequence
of buffered operations (write, home, clear, clearLine, setCursor, selectLine, arbitrary
arguments) that completes, the buffer position p satisfies 0 ≤ p ≤ 32; and the sequence
does complete whenever each of its `clearLine(l)` calls has `constrain(1,16,l)` in 1..2. -/
theorem serLCD_buffered_bufpos_bound (constrain : Int → Int → Int → Int)
    (hcol : ∀ x, 0 ≤ constrain 0 15 x ∧ constrain 0 15 x ≤ 15)
    (hrow : ∀ y, 0 ≤ constrain 0 1 y ∧ constrain 0 1 y ≤ 1)
    (s : serLCD_buffered) (hpos : s._bufpos = 0) (ops : List BufferedOp) :
    (∀ t, s.run constrain ops = some t → 0 ≤ t._bufpos ∧ t._bufpos ≤ 32) ∧
    ((∀ l, BufferedOp.clearLine l ∈ ops → 1 ≤ constrain 1 16 l ∧ constrain 1 16 l ≤ 2) →
      ∃ t, s.run constrain ops = some t) := by
  have hs : 0 ≤ s._bufpos ∧ s._bufpos ≤ 32 := by omega
  exact ⟨fun t ht => serLCD_buffered_run_bound constrain hcol hrow ops s t hs ht,
    fun hops => serLCD_buffered_run_some constrain hcol hrow ops s hs hops⟩

theorem serLCD_buffered_bufpos_bound_witness :
    ∃ t, (serLCD_buffered.construct [] 0 0 (fun _ => 7) 0).run constrain
        [BufferedOp.setCursor 40 7, BufferedOp.write 65, BufferedOp.selectLine 0,
         BufferedOp.clear, BufferedOp.home, BufferedOp.write 66]
          = some t ∧ 0 ≤ t._bufpos ∧ t._bufpos ≤ 32 :=
  match (serLCD_buffered_bufpos_bound constrain constrain_column_range constrain_row_range
      (serLCD_buffered.construct [] 0 0 (fun _ => 7) 0) rfl
      [BufferedOp.setCursor 40 7, BufferedOp.write 65, BufferedOp.selectLine 0,
       BufferedOp.clear, BufferedOp.home, BufferedOp.write 66]) with
  | ⟨hbound, hsome⟩ =>
    match hsome (by
      intro l hl
      simp at hl) with
    | ⟨t, ht⟩ => ⟨t, ht, hbound t ht⟩

/-! ## The buffered driver: clear and home -/

/-- C9: for every buffered state, `clear()` completes and returns the state with all 32
buffer bytes zero and every other component unchanged: the buffer position is the one
before the call and the transport has received no byte. -/
theorem serLCD_buffered_clear_frame (s : serLCD_buffered) :
    s.clear = some { s with _buf := fun _ => 0 } ∧
    ∀ t, s.clear = some t →
      (∀ i : Fin 32, t._buf i = 0) ∧ t._bufpos = s._bufpos ∧
        t._serialobject = s._serialobject := by
  refine ⟨serLCD_buffered_clear_eq s, ?_⟩
  intro t ht
  rw [serLCD_buffered_clear_eq] at ht
  rw [← Option.some.inj ht]
  exact ⟨fun _ => rfl, rfl, rfl⟩

/-- C10: for every buffered state, after `home()` the buffer position is 0, each of the
32 buffer bytes is the one before the call, and the inherited driver state, with the
bytes received by the transport, is unchanged. -/
theorem serLCD_buffered_home_frame (s : serLCD_buffered) :
    s.home._bufpos = 0 ∧ (∀ i : Fin 32, s.home._buf i = s._buf i) ∧
      s.home._serialobject = s._serialobject ∧ s.home.toserLCD = s.toserLCD := by
  exact ⟨rfl, fun _ => rfl, rfl, rfl⟩

/-! ## The buffered driver: update -/

theorem loadAt_fin (buf : Fin 32 → Nat) (j : Fin 32) : loadAt buf j.val = some (buf j) := by
  unfold loadAt
  rw [dif_pos j.isLt]

theorem cstring_eq_of_zero (buf : Fin 32 → Nat) (k : Fin 32) (hk : buf k = 0)
    (hnz : ∀ j : Fin 32, j.val < k.val → buf j ≠ 0) (n : Nat) :
    ∀ i fuel : Nat, i + n = k.val → n < fuel →
      cstring buf i fuel = some (((List.ofFn buf).take k.val).drop i) := by
  induction n with
  | zero =>
    intro i fuel hi hfuel
    obtain ⟨f, rfl⟩ : ∃ f, fuel = f + 1 := ⟨fuel - 1, by omega⟩
    have hik : i = k.val := by omega
    subst hik
    rw [cstring, loadAt_fin, Option.some_bind, if_pos hk]
    rw [List.drop_eq_nil_of_le (by rw [List.length_take]; omega)]
  | succ n ih =>
    intro i fuel hi hfuel
    obtain ⟨f, rfl⟩ : ∃ f, fuel = f + 1 := ⟨fuel - 1, by omega⟩
    have hk32 : k.val < 32 := k.isLt
    have hi32 : i < 32 := by omega
    have hlen : i < ((List.ofFn buf).take k.val).length := by
      rw [List.length_take, List.length_ofFn]
      omega
    have hne : buf ⟨i, hi32⟩ ≠ 0 := hnz ⟨i, hi32⟩ (by simp only; omega)
    rw [cstring, loadAt_fin buf ⟨i, hi32⟩, Option.some_bind, if_neg hne,
      ih (i + 1) f (by omega) (by omega), Option.map_some', List.drop_eq_getElem_cons hlen,
      List.getElem_take, List.getElem_ofFn]

theorem cstring_eq_none (buf : Fin 32 → Nat) (hnz : ∀ j : Fin 32, buf j ≠ 0) (n : Nat) :
    ∀ i fuel : Nat, i + n = 32 → cstring buf i fuel = none := by
  induction n with
  | zero =>
    intro i fuel hi
    cases fuel with
    | zero => rw [cstring]
    | succ f =>
      have h : ¬ i < 32 := by omega
      rw [cstring, loadAt, dif_neg h, Option.none_bind]
  | succ n ih =>
    intro i fuel hi
    cases fuel with
    | zero => rw [cstring]
    | succ f =>
      have hi32 : i < 32 := by omega
      rw [cstring, loadAt_fin buf ⟨i, hi32⟩, Option.some_bind, if_neg (hnz _),
        ih (i + 1) f (by omega), Option.map_none']

/-- A buffer without a zero byte: the string write reads past the end of the buffer. -/
theorem serLCD_buffered_update_no_zero (s : serLCD_buffered) (hnz : ∀ j : Fin 32, s._buf j ≠ 0) :
    s.update = none := by
  unfold serLCD_buffered.update
  rw [cstring_eq_none s._buf hnz 32 0 33 (by omega), Option.none_bind]

/-- C11 (as stated, refuted): on the buffer `A, B, 0, D, E, ...` (a zero byte at index 2)
`update()` sends the two bytes `A, B` only, not the 32 buffer bytes. -/
theorem serLCD_buffered_update_counterexample :
    ((serLCD_buffered.construct [] 0 0 (fun j => if j.val = 2 then 0 else 65 + j.val) 5).update).map
        (fun s => s._serialobject) = some [65, 66] ∧
    ((serLCD_buffered.construct [] 0 0 (fun j => if j.val = 2 then 0 else 65 + j.val) 5).update).map
        (fun s => s._serialobject)
      ≠ some ([] ++ List.ofFn (fun j : Fin 32 => if j.val = 2 then 0 else 65 + j.val)) := by
  decide

/-- C11 (amended): for every buffer content whose first zero byte is at index k,
`update()` appends to the transport exactly the buffer bytes at indices 0..k-1, in index
order and unmodified (nothing when k = 0), and leaves the buffer contents, the buffer
position and every other component unchanged. -/
theorem serLCD_buffered_update_transport (s : serLCD_buffered) (k : Fin 32)
    (hk : s._buf k = 0) (hnz : ∀ j : Fin 32, j.val < k.val → s._buf j ≠ 0) :
    s.update =
      some { s with _serialobject := s._serialobject ++ (List.ofFn s._buf).take k.val } := by
  unfold serLCD_buffered.update
  rw [cstring_eq_of_zero s._buf k hk hnz k.val 0 33 (by omega) (by omega), List.drop_zero,
    Option.some_bind]

theorem serLCD_buffered_update_transport_witness :
    ((serLCD_buffered.construct [9] 0 0 (fun j => if j.val = 2 then 0 else 65 + j.val)
        5).update).map (fun s => (s._serialobject, s._bufpos, s._buf 0, s._buf 2, s._buf 3))
      = some ([9, 65, 66], 5, 65, 0, 68) :=
  (congrArg (Option.map fun s => (s._serialobject, s._bufpos, s._buf 0, s._buf 2, s._buf 3))
    (serLCD_buffered_update_transport
      (serLCD_buffered.construct [9] 0 0 (fun j => if j.val = 2 then 0 else 65 + j.val) 5)
      ⟨2, by decide⟩ (by decide) (by decide))).trans (by decide)

/-! ## The direct driver: initialisation, line selection, custom characters -/

/-- C12: on a driver constructed with the defaults, `begin()` appends to the transport
exactly the bytes of `clear()`, the pair `0xFE, LCD_CLEARDISPLAY`, followed by the bytes of
`setBrightness(30)`, the pair `0x7C, p` with p the payload `setBrightness` sends for level
30: four bytes in total; no field changes. -/
theorem serLCD_begin_transport (serial : List Nat) (dm dc : Nat) (LCD_BACKLIGHT : Int) :
    (serLCD.construct serial dm dc).clear._serialobject
        = serial ++ [0xFE, uint8 LCD_CLEARDISPLAY] ∧
    ((serLCD.construct serial dm dc).setBrightness LCD_BACKLIGHT 30)._serialobject
        = serial ++ [0x7C, uint8 (Int.lor LCD_BACKLIGHT (30 - 1))] ∧
    (serLCD.construct serial dm dc).begin LCD_BACKLIGHT =
        { serLCD.construct serial dm dc with _serialobject :=
            serial ++ ([0xFE, uint8 LCD_CLEARDISPLAY] ++
              [0x7C, uint8 (Int.lor LCD_BACKLIGHT (30 - 1))]) } ∧
    ([0xFE, uint8 LCD_CLEARDISPLAY] ++ [0x7C, uint8 (Int.lor LCD_BACKLIGHT (30 - 1))]).length
        = 4 := by
  have hg : (30 : Int) ≥ 1 ∧ (30 : Int) ≤ 30 := by decide
  refine ⟨?_, ?_, ?_, rfl⟩
  · rw [serLCD.clear, serLCD_command_eq]
    rfl
  · rw [serLCD.setBrightness, if_pos hg, serLCD_specialCommand_eq]
    rfl
  · rw [serLCD.begin]
    simp only [serLCD.clear, serLCD.setBrightness, if_pos hg, serLCD_command_eq,
      serLCD_specialCommand_eq, List.append_assoc]
    rfl

/-- C13: on a driver constructed with the defaults, `selectLine(n)` with n in 1..2 does
exactly what `setCursor(n, 1)` does: it appends the one command pair that addresses column
1 of line n, and no data byte; for every other n the state, and so the transport, is
unchanged. -/
theorem serLCD_selectLine_transport (serial : List Nat) (dm dc : Nat) (n : Int) :
    (serLCD.construct serial dm dc).selectLine n =
      (if 1 ≤ n ∧ n ≤ 2 then
        some { serLCD.construct serial dm dc with _serialobject :=
          serial ++ (spec_cursorPair 0 n 1) }
      else
        some (serLCD.construct serial dm dc)) ∧
    (1 ≤ n ∧ n ≤ 2 →
      (serLCD.construct serial dm dc).selectLine n
        = (serLCD.construct serial dm dc).setCursor n 1) ∧
    (spec_cursorPair 0 n 1).length = 2 := by
  have hnum : ((serLCD.construct serial dm dc)._numlines : Int) = 2 := rfl
  refine ⟨?_, ?_, rfl⟩
  · by_cases hv : 1 ≤ n ∧ n ≤ 2
    · have hg : n > 0 ∧ n ≤ ((serLCD.construct serial dm dc)._numlines : Int) := by
        rw [hnum]
        omega
      have hrow : n = 1 ∨ n = 2 := by omega
      rw [if_pos hv, serLCD.selectLine, if_pos hg,
        serLCD_setCursor_of_valid _ _ _ (Or.inl rfl) ⟨hrow, by decide, by decide⟩]
      rfl
    · have hg : ¬ (n > 0 ∧ n ≤ ((serLCD.construct serial dm dc)._numlines : Int)) := by
        rw [hnum]
        omega
      rw [if_neg hv, serLCD.selectLine, if_neg hg]
  · intro hv
    have hg : n > 0 ∧ n ≤ ((serLCD.construct serial dm dc)._numlines : Int) := by
      rw [hnum]
      omega
    rw [serLCD.selectLine, if_pos hg]

/-- C18: for every integer num, `printCustomChar(num)` appends to the transport exactly
one byte, without a command marker, equal to num-1 reduced modulo 256, and changes nothing
else; for num in 1..8 that byte is num-1. -/
theorem serLCD_printCustomChar_transport (s : serLCD) (num : Int) :
    s.printCustomChar num =
      { s with _serialobject := s._serialobject ++ [((num - 1) % 256).toNat] } ∧
    (1 ≤ num ∧ num ≤ 8 → (((num - 1) % 256).toNat : Int) = num - 1) := by
  refine ⟨rfl, ?_⟩
  intro h
  omega

/-! ## The direct driver: flag operations -/

theorem uint8_lor_natCast (a m : Nat) (ha : a < 256) (hm : m < 256) :
    uint8 (Int.lor (a : Int) (m : Int)) = a ||| m := by
  show uint8 ((a ||| m : Nat) : Int) = a ||| m
  exact uint8_natCast_of_lt _ (Nat.or_lt_two_pow (n := 8) ha hm)

theorem nat_testBit_of_lt_256 (a : Nat) (ha : a < 256) (i : Nat) (hi : 8 ≤ i) :
    a.testBit i = false := by
  apply Nat.testBit_lt_two_pow
  calc a < 2 ^ 8 := ha
    _ ≤ 2 ^ i := Nat.pow_le_pow_right (by decide) hi

theorem nat_testBit_land_complement (a m : Nat) (ha : a < 256) (i : Nat) :
    (a &&& (255 ^^^ m)).testBit i = (a.testBit i && !m.testBit i) := by
  have h255 : (255 : Nat) = 2 ^ 8 - 1 := by decide
  rw [Nat.testBit_and, Nat.testBit_xor, h255, Nat.testBit_two_pow_sub_one]
  by_cases hi : i < 8
  · simp [hi]
  · rw [nat_testBit_of_lt_256 a ha i (by omega)]
    simp

theorem uint8_land_lnot_natCast (a m : Nat) (ha : a < 256) :
    uint8 (Int.land (a : Int) (Int.lnot (m : Int))) = a &&& (255 ^^^ m) := by
  show uint8 ((Nat.ldiff a m : Nat) : Int) = a &&& (255 ^^^ m)
  have hlt : Nat.ldiff a m < 2 ^ 8 := by
    apply Nat.lt_pow_two_of_testBit
    intro i hi
    rw [Nat.testBit_ldiff, nat_testBit_of_lt_256 a ha i hi]
    rfl
  rw [uint8_natCast_of_lt _ hlt]
  apply Nat.eq_of_testBit_eq
  intro i
  rw [Nat.testBit_ldiff, nat_testBit_land_complement a m ha]

theorem serLCD_set_displaycontrol_eq (s : serLCD) (DC : Int) (m : Nat)
    (hdc : s._displaycontrol < 256) (hm : m < 256) :
    ({ s with _displaycontrol := uint8 (Int.lor s._displaycontrol (m : Int)) } : serLCD).command
        (Int.lor DC (uint8 (Int.lor s._displaycontrol (m : Int)) : Int)) =
      { s with
        _displaycontrol := s._displaycontrol ||| m,
        _serialobject := s._serialobject ++
          [0xFE, uint8 (Int.lor DC ((s._displaycontrol ||| m : Nat) : Int))] } := by
  rw [serLCD_command_eq, uint8_lor_natCast _ _ hdc hm]

theorem serLCD_clear_displaycontrol_eq (s : serLCD) (DC : Int) (m : Nat)
    (hdc : s._displaycontrol < 256) :
    ({ s with _displaycontrol :=
          uint8 (Int.land s._displaycontrol (Int.lnot (m : Int))) } : serLCD).command
        (Int.lor DC (uint8 (Int.land s._displaycontrol (Int.lnot (m : Int))) : Int)) =
      { s with
        _displaycontrol := s._displaycontrol &&& (255 ^^^ m),
        _serialobject := s._serialobject ++
          [0xFE, uint8 (Int.lor DC ((s._displaycontrol &&& (255 ^^^ m) : Nat) : Int))] } := by
  rw [serLCD_command_eq, uint8_land_lnot_natCast _ _ hdc]

/-- C14: for every 8-bit value of the display-control flags and all 8-bit masks
`LCD_CURSORON`, `LCD_BLINKON`, `LCD_DISPLAYON`, each of `cursor()`, `blink()`, `display()`
replaces the flags f by `f | mask` and each of `noCursor()`, `noBlink()`, `noDisplay()` by
`f & ~mask` (bit k of the result is bit k of f or-ed with, respectively and-ed with the
negation of, bit k of the mask), leaves the entry-mode flags and all other fields
unchanged, and appends to the transport exactly the two bytes
`0xFE, low 8 bits of (LCD_DISPLAYCONTROL | updated flags)`. -/
theorem serLCD_display_control_ops (s : serLCD) (LCD_DISPLAYCONTROL : Int)
    (LCD_CURSORON LCD_BLINKON LCD_DISPLAYON : Nat)
    (hdc : s._displaycontrol < 256)
    (hc : LCD_CURSORON < 256) (hb : LCD_BLINKON < 256) (hd : LCD_DISPLAYON < 256) :
    (∀ m k : Nat,
      (s._displaycontrol ||| m).testBit k = (s._displaycontrol.testBit k || m.testBit k) ∧
      (s._displaycontrol &&& (255 ^^^ m)).testBit k
        = (s._displaycontrol.testBit k && !m.testBit k)) ∧
    s.cursor LCD_DISPLAYCONTROL LCD_CURSORON =
      { s with
        _displaycontrol := s._displaycontrol ||| LCD_CURSORON,
        _serialobject := s._serialobject ++ [0xFE, uint8 (Int.lor LCD_DISPLAYCONTROL
          ((s._displaycontrol ||| LCD_CURSORON : Nat) : Int))] } ∧
    s.blink LCD_DISPLAYCONTROL LCD_BLINKON =
      { s with
        _displaycontrol := s._displaycontrol ||| LCD_BLINKON,
        _serialobject := s._serialobject ++ [0xFE, uint8 (Int.lor LCD_DISPLAYCONTROL
          ((s._displaycontrol ||| LCD_BLINKON : Nat) : Int))] } ∧
    s.display LCD_DISPLAYCONTROL LCD_DISPLAYON =
      { s with
        _displaycontrol := s._displaycontrol ||| LCD_DISPLAYON,
        _serialobject := s._serialobject ++ [0xFE, uint8 (Int.lor LCD_DISPLAYCONTROL
          ((s._displaycontrol ||| LCD_DISPLAYON : Nat) : Int))] } ∧
    s.noCursor LCD_DISPLAYCONTROL LCD_CURSORON =
      { s with
        _displaycontrol := s._displaycontrol &&& (255 ^^^ LCD_CURSORON),
        _serialobject := s._serialobject ++ [0xFE, uint8 (Int.lor LCD_DISPLAYCONTROL
          ((s._displaycontrol &&& (255 ^^^ LCD_CURSORON) : Nat) : Int))] } ∧
    s.noBlink LCD_DISPLAYCONTROL LCD_BLINKON =
      { s with
        _displaycontrol := s._displaycontrol &&& (255 ^^^ LCD_BLINKON),
        _serialobject := s._serialobject ++ [0xFE, uint8 (Int.lor LCD_DISPLAYCONTROL
          ((s._displaycontrol &&& (255 ^^^ LCD_BLINKON) : Nat) : Int))] } ∧
    s.noDisplay LCD_DISPLAYCONTROL LCD_DISPLAYON =
      { s with
        _displaycontrol := s._displaycontrol &&& (255 ^^^ LCD_DISPLAYON),
        _serialobject := s._serialobject ++ [0xFE, uint8 (Int.lor LCD_DISPLAYCONTROL
          ((s._displaycontrol &&& (255 ^^^ LCD_DISPLAYON) : Nat) : Int))] } := by
  refine ⟨?_, ?_, ?_, ?_, ?_, ?_, ?_⟩
  · intro m k
    exact ⟨Nat.testBit_or _ _ _, nat_testBit_land_complement _ m hdc k⟩
  · exact serLCD_set_displaycontrol_eq s LCD_DISPLAYCONTROL LCD_CURSORON hdc hc
  · exact serLCD_set_displaycontrol_eq s LCD_DISPLAYCONTROL LCD_BLINKON hdc hb
  · exact serLCD_set_displaycontrol_eq s LCD_DISPLAYCONTROL LCD_DISPLAYON hdc hd
  · exact serLCD_clear_displaycontrol_eq s LCD_DISPLAYCONTROL LCD_CURSORON hdc
  · exact serLCD_clear_displaycontrol_eq s LCD_DISPLAYCONTROL LCD_BLINKON hdc
  · exact serLCD_clear_displaycontrol_eq s LCD_DISPLAYCONTROL LCD_DISPLAYON hdc

theorem serLCD_display_control_ops_witness :
    (serLCD.construct [] 1 4).cursor 0x08 0x02
      = { serLCD.construct [] 1 6 with _serialobject := [0xFE, 0x0E] } ∧
    (serLCD.construct [] 1 7).noBlink 0x08 0x01
      = { serLCD.construct [] 1 6 with _serialobject := [0xFE, 0x0E] } ∧
    (serLCD.construct [] 1 4).noDisplay 0x08 0x04
      = { serLCD.construct [] 1 0 with _serialobject := [0xFE, 0x08] } :=
  ⟨((serLCD_display_control_ops (serLCD.construct [] 1 4) 0x08 0x02 0x01 0x04
      (by decide) (by decide) (by decide) (by decide)).2.1).trans (by decide),
   ((serLCD_display_control_ops (serLCD.construct [] 1 7) 0x08 0x02 0x01 0x04
      (by decide) (by decide) (by decide) (by decide)).2.2.2.2.2.1).trans (by decide),
   ((serLCD_display_control_ops (serLCD.construct [] 1 4) 0x08 0x02 0x01 0x04
      (by decide) (by decide) (by decide) (by decide)).2.2.2.2.2.2).trans (by decide)⟩

theorem serLCD_set_displaymode_eq (s : serLCD) (EM : Int) (m : Nat)
    (hdm : s._displaymode < 256) (hm : m < 256) :
    ({ s with _displaymode := uint8 (Int.lor s._displaymode (m : Int)) } : serLCD).command
        (Int.lor EM (uint8 (Int.lor s._displaymode (m : Int)) : Int)) =
      { s with
        _displaymode := s._displaymode ||| m,
        _serialobject := s._serialobject ++
          [0xFE, uint8 (Int.lor EM ((s._displaymode ||| m : Nat) : Int))] } := by
  rw [serLCD_command_eq, uint8_lor_natCast _ _ hdm hm]

theorem serLCD_clear_displaymode_eq (s : serLCD) (EM : Int) (m : Nat)
    (hdm : s._displaymode < 256) :
    ({ s with _displaymode :=
          uint8 (Int.land s._displaymode (Int.lnot (m : Int))) } : serLCD).command
        (Int.lor EM (uint8 (Int.land s._displaymode (Int.lnot (m : Int))) : Int)) =
      { s with
        _displaymode := s._displaymode &&& (255 ^^^ m),
        _serialobject := s._serialobject ++
          [0xFE, uint8 (Int.lor EM ((s._displaymode &&& (255 ^^^ m) : Nat) : Int))] } := by
  rw [serLCD_command_eq, uint8_land_lnot_natCast _ _ hdm]

/-- C15: for every 8-bit value f of the entry-mode flags and every 8-bit mask
`LCD_ENTRYLEFT`, `leftToRight()` replaces the flags by `f | LCD_ENTRYLEFT` and
`rightToLeft()` by `f & ~LCD_ENTRYLEFT` (bit k of the result is bit k of f or-ed with,
respectively and-ed with the negation of, bit k of the mask), leaves the display-control
flags and all other fields unchanged, and appends to the transport exactly the two bytes
`0xFE, low 8 bits of (LCD_ENTRYMODESET | updated flags)`. -/
theorem serLCD_entry_direction_ops (s : serLCD) (LCD_ENTRYMODESET : Int) (LCD_ENTRYLEFT : Nat)
    (hdm : s._displaymode < 256) (hl : LCD_ENTRYLEFT < 256) :
    (∀ k : Nat,
      (s._displaymode ||| LCD_ENTRYLEFT).testBit k
        = (s._displaymode.testBit k || LCD_ENTRYLEFT.testBit k) ∧
      (s._displaymode &&& (255 ^^^ LCD_ENTRYLEFT)).testBit k
        = (s._displaymode.testBit k && !LCD_ENTRYLEFT.testBit k)) ∧
    s.leftToRight LCD_ENTRYMODESET LCD_ENTRYLEFT =
      { s with
        _displaymode := s._displaymode ||| LCD_ENTRYLEFT,
        _serialobject := s._serialobject ++ [0xFE, uint8 (Int.lor LCD_ENTRYMODESET
          ((s._displaymode ||| LCD_ENTRYLEFT : Nat) : Int))] } ∧
    s.rightToLeft LCD_ENTRYMODESET LCD_ENTRYLEFT =
      { s with
        _displaymode := s._displaymode &&& (255 ^^^ LCD_ENTRYLEFT),
        _serialobject := s._serialobject ++ [0xFE, uint8 (Int.lor LCD_ENTRYMODESET
          ((s._displaymode &&& (255 ^^^ LCD_ENTRYLEFT) : Nat) : Int))] } := by
  refine ⟨?_, ?_, ?_⟩
  · intro k
    exact ⟨Nat.testBit_or _ _ _, nat_testBit_land_complement _ LCD_ENTRYLEFT hdm k⟩
  · exact serLCD_set_displaymode_eq s LCD_ENTRYMODESET LCD_ENTRYLEFT hdm hl
  · exact serLCD_clear_displaymode_eq s LCD_ENTRYMODESET LCD_ENTRYLEFT hdm

theorem serLCD_entry_direction_ops_witness :
    (serLCD.construct [] 1 4).leftToRight 0x04 0x02
      = { serLCD.construct [] 3 4 with _serialobject := [0xFE, 0x07] } ∧
    (serLCD.construct [] 3 4).rightToLeft 0x04 0x02
      = { serLCD.construct [] 1 4 with _serialobject := [0xFE, 0x05] } :=
  ⟨((serLCD_entry_direction_ops (serLCD.construct [] 1 4) 0x04 0x02
      (by decide) (by decide)).2.1).trans (by decide),
   ((serLCD_entry_direction_ops (serLCD.construct [] 3 4) 0x04 0x02
      (by decide) (by decide)).2.2).trans (by decide)⟩

/-! ## The direct driver: DDRAM addressing -/

theorem ddramAddress_linear (off : Nat) (row col : Int) (hoff : off = 0 ∨ off = 1)
    (hrow : row = 1 ∨ row = 2) :
    ddramAddress off row col = (row - 1) * 0x40 + (col - 1) := by
  unfold ddramAddress
  rcases hoff with ho | ho <;> rcases hrow with hr | hr <;> subst ho <;> subst hr <;>
    simp [row_offsets] <;> omega

theorem lor_setddramaddr_eq_add (a : Int) (h0 : 0 ≤ a) (h1 : a ≤ 0x4F) :
    Int.lor LCD_SETDDRAMADDR a = 0x80 + a := by
  interval_cases a <;> rfl

theorem serLCD_setCursor_log (s : serLCD) (row col : Int)
    (hoff : s._rowoffset = 0 ∨ s._rowoffset = 1)
    (hv : (row = 1 ∨ row = 2) ∧ 1 ≤ col ∧ col ≤ 16) :
    (s.setCursor row col).map (fun t => t._serialobject)
      = some (s._serialobject ++ [0xFE, (0x80 + ((row - 1) * 0x40 + (col - 1))).toNat]) := by
  have hlin := ddramAddress_linear s._rowoffset row col hoff hv.1
  have hrange : 0 ≤ ddramAddress s._rowoffset row col ∧
      ddramAddress s._rowoffset row col ≤ 0x4F := by
    rw [hlin]
    omega
  rw [serLCD_setCursor_of_valid s row col hoff hv, Option.map_some']
  show some (s._serialobject ++
    [0xFE, Int.toNat (Int.lor LCD_SETDDRAMADDR (ddramAddress s._rowoffset row col))]) = _
  rw [lor_setddramaddr_eq_add _ hrange.1 hrange.2, hlin]

/-- C19: for a row offset of 0 or 1 and valid positions (row in {1,2}, col in 1..16), the
DDRAM address `(col-1) + table[offset][row-1]` lies in 0..0x4F, below 2^7, OR-ing it with
the command bit `0x80` equals adding `0x80` and the sum is below 256, so the byte `setCursor` emits
after `0xFE` is `0x80 + address`; the emitted bytes are the same under offset 0 and offset
1; and two valid positions for which `setCursor` emits the same bytes are the same
(row, col). -/
theorem serLCD_setCursor_addressing (s : serLCD) (row col row2 col2 : Int)
    (hoff : s._rowoffset = 0 ∨ s._rowoffset = 1)
    (hv : (row = 1 ∨ row = 2) ∧ 1 ≤ col ∧ col ≤ 16)
    (hv2 : (row2 = 1 ∨ row2 = 2) ∧ 1 ≤ col2 ∧ col2 ≤ 16) :
    (0 ≤ ddramAddress s._rowoffset row col ∧ ddramAddress s._rowoffset row col ≤ 0x4F ∧
      ddramAddress s._rowoffset row col < 2 ^ 7) ∧
    Int.lor LCD_SETDDRAMADDR (ddramAddress s._rowoffset row col)
      = 0x80 + ddramAddress s._rowoffset row col ∧
    0x80 + ddramAddress s._rowoffset row col < 256 ∧
    (s.setCursor row col).map (fun t => t._serialobject)
      = some (s._serialobject ++
          [0xFE, (0x80 + ddramAddress s._rowoffset row col).toNat]) ∧
    (({ s with _rowoffset := 0 } : serLCD).setCursor row col).map (fun t => t._serialobject)
      = (({ s with _rowoffset := 1 } : serLCD).setCursor row col).map
          (fun t => t._serialobject) ∧
    ((s.setCursor row col).map (fun t => t._serialobject)
        = (s.setCursor row2 col2).map (fun t => t._serialobject) →
      row = row2 ∧ col = col2) := by
  have hlin := ddramAddress_linear s._rowoffset row col hoff hv.1
  have hrange : 0 ≤ ddramAddress s._rowoffset row col ∧
      ddramAddress s._rowoffset row col ≤ 0x4F := by
    rw [hlin]
    omega
  refine ⟨⟨hrange.1, hrange.2, by norm_num; omega⟩,
    lor_setddramaddr_eq_add _ hrange.1 hrange.2, by omega, ?_, ?_, ?_⟩
  · rw [serLCD_setCursor_log s row col hoff hv, hlin]
  · rw [serLCD_setCursor_log _ row col (Or.inl rfl) hv,
      serLCD_setCursor_log _ row col (Or.inr rfl) hv]
  · rw [serLCD_setCursor_log s row col hoff hv, serLCD_setCursor_log s row2 col2 hoff hv2]
    intro h
    have h1 := List.append_cancel_left (Option.some.inj h)
    have h2 : (0x80 + ((row - 1) * 0x40 + (col - 1))).toNat
        = (0x80 + ((row2 - 1) * 0x40 + (col2 - 1))).toNat := by
      simpa using h1
    omega

theorem serLCD_setCursor_addressing_witness :
    ddramAddress 0 2 16 = 0x4F ∧
    ((serLCD.construct [] 0 0).setCursor 2 16).map (fun t => t._serialobject)
      = some [0xFE, 0xCF] :=
  ⟨le_antisymm
      (serLCD_setCursor_addressing (serLCD.construct [] 0 0) 2 16 1 1 (Or.inl rfl)
        (by decide) (by decide)).1.2.1 (by decide),
   ((serLCD_setCursor_addressing (serLCD.construct [] 0 0) 2 16 1 1 (Or.inl rfl)
        (by decide) (by decide)).2.2.2.1).trans (by decide)⟩

/-! ## The buffered driver: clearLine, setCursor, selectLine -/

theorem constrain_one_sixteen (l : Int) : constrain 1 16 l = 16 := by
  unfold constrain
  rw [if_pos (by decide)]

theorem constrain_zero_fifteen (x : Int) : constrain 0 15 x = 15 := by
  unfold constrain
  rw [if_pos (by decide)]

theorem constrain_zero_one (y : Int) : constrain 0 1 y = 1 := by
  unfold constrain
  rw [if_pos (by decide)]

/-- For every argument the first store of the buffered `clearLine` is at index 240, outside
the 32-byte buffer. -/
theorem serLCD_buffered_clearLine_none (s : serLCD_buffered) (l : Int) :
    s.clearLine constrain l = none := by
  have hfuel : (((16 : Int) - 1) * 16 + 16 - (16 - 1) * 16).toNat = 15 + 1 := by decide
  have hstore : storeAt s._buf (((16 : Int) - 1) * 16) 0 = none := by
    unfold storeAt
    rw [dif_neg (by decide)]
  unfold serLCD_buffered.clearLine
  simp only [constrain_one_sixteen]
  rw [zeroLoop, hfuel, zeroLoop.go, hstore, Option.none_bind, Option.none_bind]

/-- For all arguments the buffered `setCursor` sets the buffer position to 16. -/
theorem serLCD_buffered_setCursor_eq (s : serLCD_buffered) (x y : Int) :
    s.setCursor constrain x y = { s with _bufpos := 16 } := by
  unfold serLCD_buffered.setCursor
  rw [constrain_zero_fifteen, constrain_zero_one]
  rfl

/-- C16 (the code at the failing inputs): in `clearLine(1)` and in `clearLine(2)` the call
`constrain(1,16,l)` yields 16, the loop starts at index (16-1)*16 = 240, the store at that
index is outside the 32-byte buffer, and the call completes with no state: bytes 0..15,
respectively 16..31, are not zeroed. -/
theorem serLCD_buffered_clearLine_lines_fail :
    constrain 1 16 1 = 16 ∧ constrain 1 16 2 = 16 ∧
    (constrain 1 16 1 - 1) * 16 = 240 ∧ (constrain 1 16 2 - 1) * 16 = 240 ∧
    (storeAt (fun j => 65 + j.val) 240 0).isSome = false ∧
    ((serLCD_buffered.construct [] 0 0 (fun j => 65 + j.val) 5).clearLine constrain 1).isSome
      = false ∧
    ((serLCD_buffered.construct [] 0 0 (fun j => 65 + j.val) 5).clearLine constrain 2).isSome
      = false := by
  decide

/-- C17 (the code at the failing input): for all integers x, y the buffered `setCursor(x, y)`
sets the buffer position to 16, because `constrain(0,15,x-1)` is 15 and `constrain(0,1,y-1)`
is 1 whatever x and y are; `setCursor(1, 1)` yields position 16 where column 0 plus row 0
is 0.  The buffer bytes and the transport are unchanged, and `selectLine(l)` yields exactly
the state `setCursor(1, l)` yields. -/
theorem serLCD_buffered_setCursor_constant (s : serLCD_buffered) (x y l : Int) :
    (s.setCursor constrain 1 1)._bufpos = 16 ∧
    max (0 : Int) (min 15 (1 - 1)) + max 0 (min 1 (1 - 1)) = 0 ∧
    s.setCursor constrain x y = { s with _bufpos := 16 } ∧
    (∀ i : Fin 32, (s.setCursor constrain x y)._buf i = s._buf i) ∧
    (s.setCursor constrain x y)._serialobject = s._serialobject ∧
    s.selectLine constrain l = s.setCursor constrain 1 l := by
  refine ⟨?_, by decide, serLCD_buffered_setCursor_eq s x y, fun _ => rfl, rfl, rfl⟩
  rw [serLCD_buffered_setCursor_eq]

/-- C20 (the code at the failing input): in `clearLine(3)` the call `constrain(1,16,3)` yields
16, the first store is at index (16-1)*16 = 240, outside the 32-byte buffer, and the checked
store fails. -/
theorem serLCD_buffered_clearLine_escapes_buffer :
    (constrain 1 16 3 - 1) * 16 = 240 ∧
    (storeAt (fun _ => 7) ((constrain 1 16 3 - 1) * 16) 0).isSome = false ∧
    ((serLCD_buffered.construct [] 0 0 (fun _ => 7) 0).clearLine constrain 3).isSome
      = false := by
  decide
